import Mathlib

/-!
Verification development for the geodesk bridge layer
(src/bridge/geodesk_bridge.cpp and src/bridge/geodesk_bridge.h).

The bridge marshals spatial queries into an opaque indexed store
(the external geodesk library) and materializes the matching features
into flattened, self-contained records.  The store itself is an external
collaborator accessed only through a narrow read capability set, so it
is modelled abstractly: a `FeatureStore` carries a `run` function that,
given the filter expression and the spatial box, yields the iteration
the store would produce — a list of steps, each step either a matching
`Feature` or an error raised by the store mid-iteration (filter-syntax
errors, I/O errors while reading blocks, ...).

Coordinates and identifiers are opaque scalars for this layer: the
bridge copies them unchanged and performs no arithmetic on them, so they
are modelled as integers.  Strings are modelled as Lean `String`.
-/

namespace GeodeskBridge

/-- One vertex of a way's geometry, mirroring `NodeData`
(id, lon, lat) as pushed by the node-collection loop of
`FeatureStore::query`. -/
structure NodeData where
  id : Int
  lon : Int
  lat : Int
deriving DecidableEq, Repr

/-- A feature as exposed by the opaque store's read capabilities:
`id()`, `typeName()`, `lon()`, `lat()`, the `["name"]` tag lookup
(`none` when the tag is absent), the `tags()` enumeration in store
order, `isWay()`, and the `nodes()` enumeration in store order. -/
structure Feature where
  id : Int
  typeName : String
  lon : Int
  lat : Int
  nameTag : Option String
  tags : List (String × String)
  isWay : Bool
  nodes : List NodeData
deriving DecidableEq, Repr

/-- The flattened record built by the materialization loop of
`FeatureStore::query`, mirroring the cxx-generated `FeatureData`:
parallel `tag_keys` / `tag_values` vectors and an eagerly captured
`nodes` vector. -/
structure FeatureData where
  id : Int
  type_name : String
  lon : Int
  lat : Int
  name : String
  tag_keys : List String
  tag_values : List String
  nodes : List NodeData
deriving DecidableEq, Repr

/-- The four bbox doubles received over the boundary, mirroring
`struct BoundingBox` in geodesk_bridge.h. -/
structure BoundingBox where
  west : Int
  south : Int
  east : Int
  north : Int
deriving DecidableEq, Repr

/-- The store's spatial box, mirroring `geodesk::Box`. -/
structure Box where
  west : Int
  south : Int
  east : Int
  north : Int
deriving DecidableEq, Repr

/-- `Box::ofWSEN(west, south, east, north)`: builds the spatial box from
the four coordinates in west, south, east, north order.  No validation
of `west ≤ east` or `south ≤ north` is performed. -/
def Box.ofWSEN (w s e n : Int) : Box :=
  { west := w, south := s, east := e, north := n }

/-- One step of the store's iteration over the filtered features:
either the next matching feature, or an exception raised by the store
(filter-syntax error, I/O error, ...) at that point of the iteration. -/
abbrev StoreStep := Except String Feature

/-- The opaque indexed store behind a `FeatureStore` handle
(`pImpl->features`).  `run goql box` is the iteration produced by
`pImpl->features(goql.c_str())(box)` for that filter expression and
spatial box. -/
structure FeatureStore where
  run : String → Box → List StoreStep

/-- The per-node copy in the geometry-capture loop of
`FeatureStore::query`: reads `node.id()`, `node.lon()`, `node.lat()`
into a fresh `NodeData`. -/
def materializeNode (n : NodeData) : NodeData :=
  { id := n.id, lon := n.lon, lat := n.lat }

/-- The loop body of `FeatureStore::query` for one feature: reads id,
type name and representative point, records the `name` tag or the empty
string when it is absent, flattens the tags into the two parallel
vectors in store enumeration order, and — only when the feature is a
way — eagerly captures its nodes in store order. -/
def materializeFeature (f : Feature) : FeatureData :=
  { id := f.id
    type_name := f.typeName
    lon := f.lon
    lat := f.lat
    name :=
      match f.nameTag with
      | some s => s
      | none => ""
    tag_keys := f.tags.map Prod.fst
    tag_values := f.tags.map Prod.snd
    nodes := if f.isWay then f.nodes.map materializeNode else [] }

/-- The result-accumulation loop of `FeatureStore::query`: features are
materialized and appended (`add_feature` push_back) left to right; the
first error raised by the store aborts the loop and discards the
accumulator (in the source, the exception escapes the `try` block and
the local `result` is destroyed). -/
def collectLoop (acc : List FeatureData) : List StoreStep → Except String (List FeatureData)
  | [] => Except.ok acc
  | Except.error e :: _ => Except.error e
  | Except.ok f :: rest => collectLoop (acc ++ [materializeFeature f]) rest

/-- The result-set wrapper, mirroring `FeatureResult`: a plain vector of
materialized records, holding no reference to the store. -/
structure FeatureResult where
  features : List FeatureData
deriving DecidableEq, Repr

/-- `FeatureResult::count`. -/
def FeatureResult.count (r : FeatureResult) : Nat :=
  r.features.length

/-- `FeatureResult::get`: throws `std::out_of_range` ("Feature index out
of range") when `index >= features.size()`, otherwise returns a fresh
copy of the record at that index. -/
def FeatureResult.get (r : FeatureResult) (index : Nat) : Except String FeatureData :=
  if h : index ≥ r.features.length then
    Except.error "Feature index out of range"
  else
    Except.ok (r.features.get ⟨index, Nat.lt_of_not_le h⟩)

/-- `FeatureResult::to_vector`: a copy of the whole record vector. -/
def FeatureResult.to_vector (r : FeatureResult) : List FeatureData :=
  r.features

/-- `FeatureResult::add_feature`: push_back of one record. -/
def FeatureResult.add_feature (r : FeatureResult) (f : FeatureData) : FeatureResult :=
  { features := r.features ++ [f] }

/-- `FeatureStore::query`: builds the spatial box with `Box::ofWSEN`
from the bbox fields in west, south, east, north order, runs the store
iteration, materializes each feature in iteration order, and either
returns the completed result set or rethrows the store's failure
wrapped as "Query failed: " plus the underlying cause, discarding any
partially accumulated records. -/
def FeatureStore.query (s : FeatureStore) (goql_query : String) (bbox : BoundingBox) :
    Except String FeatureResult :=
  let box := Box.ofWSEN bbox.west bbox.south bbox.east bbox.north
  match collectLoop [] (s.run goql_query box) with
  | Except.error e => Except.error ("Query failed: " ++ e)
  | Except.ok feats => Except.ok { features := feats }

/-- `FeatureStore::query_amenities`: builds the GOQL filter
`"na[amenity=" + amenity_type + "]"` (the amenity type inserted
verbatim, no escaping) and delegates to the generic query. -/
def FeatureStore.query_amenities (s : FeatureStore) (amenity_type : String)
    (bbox : BoundingBox) : Except String FeatureResult :=
  s.query ("na[amenity=" ++ amenity_type ++ "]") bbox

/-- A read operation on a result set: the three `const` accessors of
`FeatureResult`. -/
inductive ReadOp where
  | count : ReadOp
  | get : Nat → ReadOp
  | toVector : ReadOp

/-- The value observed by one read operation. -/
inductive ReadObs where
  | countObs : Nat → ReadObs
  | getObs : Except String FeatureData → ReadObs
  | toVectorObs : List FeatureData → ReadObs

/-- Running one read against a result set: each accessor is `const`, so
the result set it leaves behind is returned explicitly to make the
frame property statable. -/
def runRead (r : FeatureResult) : ReadOp → ReadObs × FeatureResult
  | ReadOp.count => (ReadObs.countObs r.count, r)
  | ReadOp.get i => (ReadObs.getObs (r.get i), r)
  | ReadOp.toVector => (ReadObs.toVectorObs r.to_vector, r)

/-- Running a sequence of reads, threading the result-set state. -/
def runReads (r : FeatureResult) : List ReadOp → List ReadObs × FeatureResult
  | [] => ([], r)
  | op :: ops =>
    let step := runRead r op
    let rest := runReads step.2 ops
    (step.1 :: rest.1, rest.2)

/-! ### Concrete fixtures used by the witnesses -/

/-- A concrete node. -/
def sampleNode : NodeData := { id := 42, lon := 3, lat := 7 }

/-- A concrete way feature with a name tag, two tags and one vertex. -/
def sampleFeature : Feature :=
  { id := 1001
    typeName := "way"
    lon := 3
    lat := 7
    nameTag := some "Cafe X"
    tags := [("amenity", "cafe"), ("name", "Cafe X")]
    isWay := true
    nodes := [sampleNode] }

/-- The record the query loop builds from `sampleFeature`. -/
def sampleData : FeatureData := materializeFeature sampleFeature

/-- A concrete result set holding `sampleData`. -/
def sampleResult : FeatureResult := { features := [sampleData] }

/-- A concrete bounding box. -/
def bbox0 : BoundingBox := { west := -2, south := 51, east := 0, north := 52 }

/-- A concrete inverted bounding box (west > east and south > north):
the bridge does not validate it. -/
def bboxInv : BoundingBox := { west := 5, south := 50, east := -5, north := 40 }

/-- A store whose iteration yields `sampleFeature` and then succeeds. -/
def okStore : FeatureStore :=
  { run := fun _ _ => [Except.ok sampleFeature] }

/-- A store whose iteration yields `sampleFeature` and then raises an
I/O error. -/
def failStore : FeatureStore :=
  { run := fun _ _ => [Except.ok sampleFeature, Except.error "disk read error"] }

/-! ### Helper lemmas about the accumulation loop -/

/-- An error-free iteration materializes every feature in order, after
whatever was already accumulated. -/
theorem collectLoop_ok (feats : List Feature) :
    ∀ acc, collectLoop acc (feats.map Except.ok)
      = Except.ok (acc ++ feats.map materializeFeature) := by
  induction feats with
  | nil => intro acc; simp [collectLoop]
  | cons f rest ih =>
    intro acc
    simp only [List.map_cons, collectLoop, ih, List.append_assoc, List.cons_append,
      List.nil_append]

/-- An iteration that raises an error after some successful features
fails with that error: the accumulator is discarded. -/
theorem collectLoop_error (pre : List Feature) (e : String) (post : List StoreStep) :
    ∀ acc, collectLoop acc (pre.map Except.ok ++ Except.error e :: post)
      = Except.error e := by
  induction pre with
  | nil => intro acc; simp [collectLoop]
  | cons f rest ih =>
    intro acc
    simp only [List.map_cons, List.cons_append, collectLoop]
    exact ih _

/-- Every record produced by the loop either was already accumulated or
is the materialization of a feature appearing in the iteration. -/
theorem collectLoop_mem (steps : List StoreStep) :
    ∀ acc l, collectLoop acc steps = Except.ok l →
      ∀ fd ∈ l, fd ∈ acc ∨ ∃ f, Except.ok f ∈ steps ∧ fd = materializeFeature f := by
  induction steps with
  | nil =>
    intro acc l h fd hfd
    simp only [collectLoop, Except.ok.injEq] at h
    exact Or.inl (h ▸ hfd)
  | cons st rest ih =>
    intro acc l h fd hfd
    cases st with
    | error e => simp [collectLoop] at h
    | ok f =>
      simp only [collectLoop] at h
      rcases ih (acc ++ [materializeFeature f]) l h fd hfd with hacc | ⟨g, hg, hfd'⟩
      · rcases List.mem_append.mp hacc with h1 | h2
        · exact Or.inl h1
        · exact Or.inr ⟨f, List.mem_cons_self _ _, List.mem_singleton.mp h2⟩
      · exact Or.inr ⟨g, List.mem_cons_of_mem _ hg, hfd'⟩

/-- On success, `query` returns exactly the materializations, in the
store's iteration order, of the features of an error-free iteration. -/
theorem query_ok_of_run (s : FeatureStore) (goql : String) (bbox : BoundingBox)
    (feats : List Feature)
    (h : s.run goql (Box.ofWSEN bbox.west bbox.south bbox.east bbox.north)
        = feats.map Except.ok) :
    s.query goql bbox = Except.ok { features := feats.map materializeFeature } := by
  simp only [FeatureStore.query, h, collectLoop_ok, List.nil_append]

/-- Every record of a successful query's result set is the
materialization of some feature of the store's iteration. -/
theorem query_mem (s : FeatureStore) (goql : String) (bbox : BoundingBox)
    (r : FeatureResult)
    (h : s.query goql bbox = Except.ok r) :
    ∀ fd ∈ r.features, ∃ f,
      Except.ok f ∈ s.run goql (Box.ofWSEN bbox.west bbox.south bbox.east bbox.north)
      ∧ fd = materializeFeature f := by
  intro fd hfd
  simp only [FeatureStore.query] at h
  set steps := s.run goql (Box.ofWSEN bbox.west bbox.south bbox.east bbox.north) with hsteps
  cases hc : collectLoop [] steps with
  | error e => rw [hc] at h; simp at h
  | ok l =>
    rw [hc] at h
    simp only [Except.ok.injEq] at h
    rcases collectLoop_mem steps [] l hc fd (by rw [← h] at hfd; exact hfd) with habs | hgood
    · simp at habs
    · exact hgood

/-! ### Claim theorems -/

/-- Claim C1: for every result set, `to_vector` has length `count`, and
for every index `i < count`, `get i` succeeds with exactly the `i`-th
element of `to_vector` (structure equality, hence field-by-field), in
the stable order of the original query iteration. -/
theorem get_matches_to_vector (r : FeatureResult) (i : Nat) (h : i < r.count) :
    r.to_vector.length = r.count ∧ (r.get i).toOption = r.to_vector[i]? := by
  refine ⟨rfl, ?_⟩
  have hlen : i < r.features.length := h
  simp only [FeatureResult.get, FeatureResult.to_vector, dif_neg (not_le.mpr hlen),
    Except.toOption, List.getElem?_eq_getElem hlen, List.get_eq_getElem]

/-- Witness for C1 at a concrete result set and index. -/
theorem get_matches_to_vector_witness :
    sampleResult.to_vector.length = sampleResult.count
    ∧ (sampleResult.get 0).toOption = sampleResult.to_vector[0]? :=
  get_matches_to_vector sampleResult 0 (by decide)

/-- Claim C3: `get i` fails with the out-of-range error exactly when
`i ≥ count`; when `i < count` it succeeds with a copy of the record at
position `i`, and (being a `const` accessor) leaves the result set
unchanged. -/
theorem get_index_error_iff (r : FeatureResult) (i : Nat) :
    (r.get i = Except.error "Feature index out of range" ↔ r.count ≤ i)
    ∧ (i < r.count → (r.get i).toOption = r.features[i]?)
    ∧ (runRead r (ReadOp.get i)).2 = r := by
  refine ⟨?_, ?_, rfl⟩
  · constructor
    · intro h
      by_contra hlt
      have hlt' : i < r.features.length := Nat.lt_of_not_le hlt
      simp [FeatureResult.get, dif_neg (not_le.mpr hlt')] at h
    · intro h
      exact dif_pos h
  · intro h
    have hlen : i < r.features.length := h
    simp only [FeatureResult.get, dif_neg (not_le.mpr hlen), Except.toOption,
      List.getElem?_eq_getElem hlen, List.get_eq_getElem]

/-- Witness for C3 at a concrete result set and index. -/
theorem get_index_error_iff_witness :
    ((sampleResult.get 2 = Except.error "Feature index out of range"
        ↔ sampleResult.count ≤ 2)
      ∧ (2 < sampleResult.count → (sampleResult.get 2).toOption = sampleResult.features[2]?)
      ∧ (runRead sampleResult (ReadOp.get 2)).2 = sampleResult) :=
  get_index_error_iff sampleResult 2

/-- Claim C4: for every amenity type and bounding box, the amenity
convenience query is exactly the generic query over the filter string
built by inserting the amenity type verbatim (no escaping, no
validation) into "na[amenity=...]", over the same bounding box. -/
theorem query_amenities_delegates (s : FeatureStore) (amenity_type : String)
    (bbox : BoundingBox) :
    s.query_amenities amenity_type bbox
      = s.query ("na[amenity=" ++ amenity_type ++ "]") bbox := rfl

/-- Claim C6: a feature whose "name" tag is absent is materialized with
name exactly the empty string, and the record is indistinguishable from
the one of the same feature with a present-but-empty name tag. -/
theorem absent_name_is_empty_string (f : Feature) (h : f.nameTag = none) :
    (materializeFeature f).name = ""
    ∧ materializeFeature f = materializeFeature { f with nameTag := some "" } := by
  constructor
  · simp [materializeFeature, h]
  · simp [materializeFeature, h]

/-- Witness for C6 at a concrete nameless feature. -/
theorem absent_name_is_empty_string_witness :
    (materializeFeature { sampleFeature with nameTag := none }).name = ""
    ∧ materializeFeature { sampleFeature with nameTag := none }
      = materializeFeature { { sampleFeature with nameTag := none } with nameTag := some "" } :=
  absent_name_is_empty_string { sampleFeature with nameTag := none } rfl

/-- Claim C9: a constructed result set is an immutable, self-contained
snapshot: any sequence of reads (`count`, `get`, `to_vector`) leaves it
unchanged, and every observation equals the one made directly on the
original snapshot — so any interleaving of reads observes the same
contents.  The reads are functions of the result set alone: no store
argument exists, so no store access can occur. -/
theorem resultset_immutable_snapshot (r : FeatureResult) (ops : List ReadOp) :
    (runReads r ops).2 = r
    ∧ (runReads r ops).1 = ops.map (fun op => (runRead r op).1) := by
  induction ops with
  | nil => exact ⟨rfl, rfl⟩
  | cons op rest ih =>
    have hop : (runRead r op).2 = r := by cases op <;> rfl
    refine ⟨?_, ?_⟩
    · simp only [runReads, hop, ih.1]
    · simp only [runReads, hop, ih.2, List.map_cons]

/-- A second store handle over the same iteration as `okStore`. -/
def okStoreCopy : FeatureStore :=
  { run := fun _ _ => [Except.ok sampleFeature] }

/-- Claim C2: when the store reports a failure during the iteration
(after any number of successfully materialized features), the query
fails with an error wrapping the underlying cause ("Query failed: "
prefix), and no partial result set is returned — the records
accumulated before the failure are discarded. -/
theorem query_all_or_nothing (s : FeatureStore) (goql : String) (bbox : BoundingBox)
    (pre : List Feature) (e : String) (post : List StoreStep)
    (h : s.run goql (Box.ofWSEN bbox.west bbox.south bbox.east bbox.north)
        = pre.map Except.ok ++ Except.error e :: post) :
    s.query goql bbox = Except.error ("Query failed: " ++ e)
    ∧ ∀ r, s.query goql bbox ≠ Except.ok r := by
  have herr : s.query goql bbox = Except.error ("Query failed: " ++ e) := by
    simp only [FeatureStore.query, h, collectLoop_error]
  exact ⟨herr, fun r hr => by rw [herr] at hr; exact Except.noConfusion hr⟩

/-- Witness for C2: a store that yields one feature and then raises an
I/O error; the query discards the accumulated feature and fails. -/
theorem query_all_or_nothing_witness :
    failStore.query "na[amenity=cafe]" bbox0
      = Except.error ("Query failed: " ++ "disk read error")
    ∧ ∀ r, failStore.query "na[amenity=cafe]" bbox0 ≠ Except.ok r :=
  query_all_or_nothing failStore "na[amenity=cafe]" bbox0
    [sampleFeature] "disk read error" [] rfl

/-- Claim C5: every record of a successful query is the materialization
of a store feature; under the store invariant that `isWay` agrees with
the type classification being "way", a way record's node sequence is
exactly the way's vertices captured in store order (non-empty whenever
the way has vertices), and a non-way record's node sequence is empty.
The nodes live inside the record itself, so no further store access is
needed. -/
theorem way_geometry_captured (s : FeatureStore) (goql : String) (bbox : BoundingBox)
    (r : FeatureResult)
    (hq : s.query goql bbox = Except.ok r)
    (hwf : ∀ f, Except.ok f ∈ s.run goql (Box.ofWSEN bbox.west bbox.south bbox.east bbox.north)
        → f.isWay = (f.typeName == "way")) :
    ∀ fd ∈ r.features, ∃ f,
      Except.ok f ∈ s.run goql (Box.ofWSEN bbox.west bbox.south bbox.east bbox.north)
      ∧ fd = materializeFeature f
      ∧ (fd.type_name = "way" → fd.nodes = f.nodes.map materializeNode)
      ∧ (fd.type_name = "way" → f.nodes ≠ [] → fd.nodes ≠ [])
      ∧ (fd.type_name ≠ "way" → fd.nodes = []) := by
  intro fd hfd
  obtain ⟨f, hmem, hfd'⟩ := query_mem s goql bbox r hq fd hfd
  subst hfd'
  have hw := hwf f hmem
  have htype : (materializeFeature f).type_name = f.typeName := rfl
  refine ⟨f, hmem, rfl, ?_, ?_, ?_⟩
  · intro ht
    rw [htype] at ht
    simp [materializeFeature, hw, ht]
  · intro ht hne
    rw [htype] at ht
    simp [materializeFeature, hw, ht, List.map_eq_nil_iff]
    exact hne
  · intro ht
    rw [htype] at ht
    have : (f.typeName == "way") = false := by
      simpa [beq_iff_eq] using ht
    simp [materializeFeature, hw, this]

/-- Witness for C5 at a concrete one-way-feature store. -/
theorem way_geometry_captured_witness :
    ∃ f, Except.ok f ∈ okStore.run "na[amenity=cafe]"
        (Box.ofWSEN bbox0.west bbox0.south bbox0.east bbox0.north)
      ∧ sampleData = materializeFeature f
      ∧ (sampleData.type_name = "way" → sampleData.nodes = f.nodes.map materializeNode)
      ∧ (sampleData.type_name = "way" → f.nodes ≠ [] → sampleData.nodes ≠ [])
      ∧ (sampleData.type_name ≠ "way" → sampleData.nodes = []) :=
  way_geometry_captured okStore "na[amenity=cafe]" bbox0 { features := [sampleData] } rfl
    (by
      intro f hf
      simp only [okStore, List.mem_singleton, Except.ok.injEq] at hf
      subst hf
      rfl)
    sampleData (List.mem_singleton.mpr rfl)

/-- Claim C7: the spatial box is built from the four bbox coordinates
in west, south, east, north order, for every bounding box (no
validation of west ≤ east or south ≤ north), and on an error-free
iteration the completed records appear in the result set in the store's
iteration order. -/
theorem query_box_wsen_order (s : FeatureStore) (goql : String) (bbox : BoundingBox)
    (feats : List Feature)
    (h : s.run goql (Box.ofWSEN bbox.west bbox.south bbox.east bbox.north)
        = feats.map Except.ok) :
    Box.ofWSEN bbox.west bbox.south bbox.east bbox.north
      = { west := bbox.west, south := bbox.south, east := bbox.east, north := bbox.north }
    ∧ s.query goql bbox = Except.ok { features := feats.map materializeFeature } :=
  ⟨rfl, query_ok_of_run s goql bbox feats h⟩

/-- Witness for C7 at a concrete inverted bounding box (west > east,
south > north): the query still runs, unvalidated, and preserves
order. -/
theorem query_box_wsen_order_witness :
    Box.ofWSEN bboxInv.west bboxInv.south bboxInv.east bboxInv.north
      = { west := bboxInv.west, south := bboxInv.south, east := bboxInv.east,
          north := bboxInv.north }
    ∧ okStore.query "na[amenity=cafe]" bboxInv
      = Except.ok { features := [sampleFeature].map materializeFeature } :=
  query_box_wsen_order okStore "na[amenity=cafe]" bboxInv [sampleFeature] rfl

/-- Claim C8: two executions of the query over the same filter and
bounding box against the same unmodified read-only store contents yield
identical results — the query is a deterministic function of the store
contents, the filter and the box. -/
theorem query_deterministic (s1 s2 : FeatureStore) (goql : String) (bbox : BoundingBox)
    (h : s1.run = s2.run) :
    s1.query goql bbox = s2.query goql bbox
    ∧ s1.query_amenities goql bbox = s2.query_amenities goql bbox := by
  constructor
  · simp only [FeatureStore.query, h]
  · simp only [FeatureStore.query_amenities, FeatureStore.query, h]

/-- Witness for C8: two handles over the same store contents give the
same result. -/
theorem query_deterministic_witness :
    okStore.query "na[amenity=cafe]" bbox0 = okStoreCopy.query "na[amenity=cafe]" bbox0
    ∧ okStore.query_amenities "na[amenity=cafe]" bbox0
      = okStoreCopy.query_amenities "na[amenity=cafe]" bbox0 :=
  query_deterministic okStore okStoreCopy "na[amenity=cafe]" bbox0 rfl

/-- Claim C10: in every record of every successful query result, the
tag keys and tag values are parallel sequences of equal length, and the
key at position j is paired with the value at position j exactly as in
the store's tag enumeration order. -/
theorem tags_parallel_invariant (s : FeatureStore) (goql : String) (bbox : BoundingBox)
    (r : FeatureResult)
    (hq : s.query goql bbox = Except.ok r) :
    ∀ fd ∈ r.features, fd.tag_keys.length = fd.tag_values.length
      ∧ ∃ f, Except.ok f ∈ s.run goql (Box.ofWSEN bbox.west bbox.south bbox.east bbox.north)
          ∧ fd.tag_keys.zip fd.tag_values = f.tags := by
  intro fd hfd
  obtain ⟨f, hmem, hfd'⟩ := query_mem s goql bbox r hq fd hfd
  subst hfd'
  refine ⟨by simp [materializeFeature], f, hmem, ?_⟩
  simp only [materializeFeature]
  rw [List.zip_map']
  simp

/-- Witness for C10 at a concrete one-feature store. -/
theorem tags_parallel_invariant_witness :
    sampleData.tag_keys.length = sampleData.tag_values.length
    ∧ ∃ f, Except.ok f ∈ okStore.run "na[amenity=cafe]"
        (Box.ofWSEN bbox0.west bbox0.south bbox0.east bbox0.north)
      ∧ sampleData.tag_keys.zip sampleData.tag_values = f.tags :=
  tags_parallel_invariant okStore "na[amenity=cafe]" bbox0 { features := [sampleData] } rfl
    sampleData (List.mem_singleton.mpr rfl)

end GeodeskBridge
